import Mathlib

/-!
Shallow embedding of the CrowdSense heatmap / smoothing / alerting core
(src/crowdsense.py, class CrowdSenseApp).

The mutable attributes of the application object become one explicit state
structure `AppState`; each method that the claims mention becomes a function
from `AppState` to `AppState`, translated line by line from its Python body.
Python floats are embedded as exact rationals; the Python builtin `round`
(round half to even) is embedded as `pyRound`.

Two parts of the heatmap pipeline are irrational or library-defined and are
therefore taken as parameters, constrained only by properties the concrete
operations satisfy:
  - `spread` stands for the neighbor falloff `1 - (sqrt d / radius) * 0.7`
    (a function of the squared cell distance `d`; the square root is
    irrational in general); the actual falloff is nonnegative on the disk
    `d <= radius ^ 2` where it is used.
  - `blur` stands for the composite of the three `cv2.GaussianBlur` passes
    (kernel sizes 7, 17, 31); a Gaussian blur convolves with a nonnegative
    kernel and hence maps nonnegative fields to nonnegative fields.
-/

namespace CrowdSense

/-- Python builtin `round` on an exact rational: round half to even. -/
def pyRound (q : ℚ) : ℤ :=
  let f := ⌊q⌋
  let r := q - (f : ℚ)
  if r < 1 / 2 then f
  else if 1 / 2 < r then f + 1
  else if f % 2 = 0 then f else f + 1

/-- Exact value of `np.mean` on a list of natural-number counts. -/
def ratMean (l : List ℕ) : ℚ := ((l.map fun n => (n : ℚ)).sum) / (l.length : ℚ)

/-- The last `n` elements of a list (all of it when it is shorter).
`collections.deque(maxlen := n)` always holds `lastN n` of the pushed values. -/
def lastN (n : ℕ) (l : List ℕ) : List ℕ := l.drop (l.length - n)

/-- Appending to a `deque(maxlen := n)`: the oldest element is dropped when
the deque is full. -/
def dequePush (n : ℕ) (l : List ℕ) (x : ℕ) : List ℕ := lastN n (l ++ [x])

/-! ## Heatmap grids -/

/-- A low-resolution float grid (`np.zeros((low_h, low_w))` and its
successors). `val` is total; only indices below the dimensions are ever
meaningful. -/
structure HGrid where
  hDim : ℕ
  wDim : ℕ
  val : ℕ → ℕ → ℚ

/-- An all-zero grid, `np.zeros((h, w), dtype=np.float32)`. -/
def zeroGrid (h w : ℕ) : HGrid := ⟨h, w, fun _ _ => 0⟩

/-- A detection bounding box `(x1, y1, x2, y2)` in full-frame coordinates. -/
structure Box where
  x1 : ℕ
  y1 : ℕ
  x2 : ℕ
  y2 : ℕ
deriving DecidableEq

/-- The index set of an `h × w` grid. -/
def cellSet (h w : ℕ) : Finset (ℕ × ℕ) := Finset.range h ×ˢ Finset.range w

/-- `np.sum` over an `h × w` grid. -/
def gridSum (h w : ℕ) (f : ℕ → ℕ → ℚ) : ℚ := ∑ p ∈ cellSet h w, f p.1 p.2

/-- `np.max` over an `h × w` grid (the grid is nonempty whenever this value
is used by the code). -/
def gridMax (h w : ℕ) (f : ℕ → ℕ → ℚ) : ℚ :=
  (cellSet h w).fold max (f 0 0) fun p => f p.1 p.2

/-- `self.heatmap_decay = 0.99`. -/
def heatmap_decay : ℚ := 99 / 100

/-- `self.heatmap_intensity = 0.6`. -/
def heatmap_intensity : ℚ := 6 / 10

/-- `self.heatmap_neighbor_radius = 4`. -/
def heatmap_neighbor_radius : ℕ := 4

/-- Plot one box into the transient per-frame layer (`update_heatmap`,
the `for box in boxes` body): the bottom-center foot cell
`(int((x1+x2)/2*0.2), int(y2*0.2))` gets intensity `1.0`, and every other
in-bounds cell within Euclidean distance `radius` of it gets
`max(current, spread(squared distance))`. -/
def plot_box (spread : ℕ → ℚ) (low_h low_w : ℕ) (f : ℕ → ℕ → ℚ) (b : Box) :
    ℕ → ℕ → ℚ :=
  let foot_x := (b.x1 + b.x2) / 10
  let foot_y := b.y2 / 5
  if foot_y < low_h ∧ foot_x < low_w then
    fun y x =>
      if y = foot_y ∧ x = foot_x then 1
      else
        if y < low_h ∧ x < low_w ∧
            ((y : ℤ) - (foot_y : ℤ)) ^ 2 + ((x : ℤ) - (foot_x : ℤ)) ^ 2 ≤
              (heatmap_neighbor_radius : ℤ) ^ 2 then
          max (f y x)
            (spread (((y : ℤ) - (foot_y : ℤ)) ^ 2 +
              ((x : ℤ) - (foot_x : ℤ)) ^ 2).toNat)
        else f y x
  else f

/-- The raw transient layer: all boxes plotted into an all-zero grid. -/
def raw_layer (spread : ℕ → ℚ) (low_h low_w : ℕ) (boxes : List Box) :
    ℕ → ℕ → ℚ :=
  boxes.foldl (plot_box spread low_h low_w) fun _ _ => 0

/-- The transient per-frame density layer of `update_heatmap`: the raw layer,
then (when some point was plotted, `np.sum(current_heatmap) > 0`) the three
blur passes followed by normalization to its own maximum. -/
def transient_layer (blur : (ℕ → ℕ → ℚ) → ℕ → ℕ → ℚ) (spread : ℕ → ℚ)
    (low_h low_w : ℕ) (boxes : List Box) : ℕ → ℕ → ℚ :=
  let raw := raw_layer spread low_h low_w boxes
  if 0 < gridSum low_h low_w raw then
    let b := blur raw
    let m := gridMax low_h low_w b
    if 0 < m then fun y x => b y x / m else b
  else raw

/-! ## Application state -/

/-- One record of `self.threshold_history` (`update_crowd_alert_status`).
The code stores the timestamp as a formatted string derived from
`self.video_time_ms`; the record here keeps the underlying milliseconds. -/
structure AlertRecord where
  timestamp_ms : ℕ
  count : ℤ
  threshold : ℤ
deriving DecidableEq

/-- The mutable attributes of `CrowdSenseApp` that the smoothing, alerting,
peak-tracking and heatmap logic reads and writes. `offpeak_count` starts at
`float(inf)`, embedded as `⊤ : WithTop ℤ`. `paused` stands for the guard
`self.cap is None or not self.cap.isOpened() or self.paused` of
`update_people_graph`. -/
structure AppState where
  people_count_history : List ℕ
  smoothed_people_count : ℤ
  smoothing_window_size : ℕ
  crowd_detection_enabled : Bool
  crowd_size_threshold : ℤ
  threshold_alert_active : Bool
  threshold_history : List AlertRecord
  peak_count : ℤ
  peak_time_ms : ℕ
  offpeak_count : WithTop ℤ
  offpeak_time_ms : ℕ
  heatmap_enabled : Bool
  heatmap_accumulator : Option HGrid
  aggregate_heatmap_accumulator : Option HGrid
  aggregate_frame_count : ℕ
  time_data : List ℚ
  people_data : List ℤ
  video_time_ms : ℕ
  paused : Bool

/-- The initial attribute values set in `CrowdSenseApp.__init__`. -/
def initialState : AppState where
  people_count_history := []
  smoothed_people_count := 0
  smoothing_window_size := 24
  crowd_detection_enabled := false
  crowd_size_threshold := 10
  threshold_alert_active := false
  threshold_history := []
  peak_count := 0
  peak_time_ms := 0
  offpeak_count := ⊤
  offpeak_time_ms := 0
  heatmap_enabled := false
  heatmap_accumulator := none
  aggregate_heatmap_accumulator := none
  aggregate_frame_count := 0
  time_data := []
  people_data := []
  video_time_ms := 0
  paused := false

/-! ## Methods -/

/-- `update_crowd_alert_status(alert_active, count)`: store the flag and, on
an active alert only, append a `{timestamp, count, threshold}` record to
`threshold_history`. -/
def update_crowd_alert_status (s : AppState) (alert_active : Bool) (count : ℤ) :
    AppState :=
  let s1 := { s with threshold_alert_active := alert_active }
  if alert_active then
    { s1 with threshold_history :=
        s1.threshold_history ++ [⟨s1.video_time_ms, count, s1.crowd_size_threshold⟩] }
  else s1

/-- `check_threshold_crossing`: strict comparison of the smoothed count with
the threshold; alert status is only changed on an actual transition. -/
def check_threshold_crossing (s : AppState) : AppState :=
  if s.crowd_size_threshold < s.smoothed_people_count then
    if s.threshold_alert_active then s
    else update_crowd_alert_status s true s.smoothed_people_count
  else
    if s.threshold_alert_active then update_crowd_alert_status s false 0
    else s

/-- `update_people_graph(count)`: append `(video time in seconds, count)` to
the time-series buffer, unless playback is not running. -/
def update_people_graph (s : AppState) (count : ℤ) : AppState :=
  if s.paused then s
  else
    { s with time_data := s.time_data ++ [(s.video_time_ms : ℚ) / 1000],
             people_data := s.people_data ++ [count] }

/-- The state-updating core of `display_detection_results(people_count)`
(lines 2808-2838): push the raw count into the smoothing history, recompute
the smoothed count, run the threshold check when crowd detection is enabled,
append to the graph buffer, and update the peak / off-peak records.
(The display path afterwards also invokes `update_heatmap` when the heatmap
is enabled; that call is modeled as its own operation, `update_heatmap`.) -/
def display_detection_results (s : AppState) (people_count : ℕ) : AppState :=
  let h := dequePush s.smoothing_window_size s.people_count_history people_count
  let sm : ℤ := if 0 < h.length then pyRound (ratMean h) else (people_count : ℤ)
  let s1 := { s with people_count_history := h, smoothed_people_count := sm }
  let s2 := if s1.crowd_detection_enabled then check_threshold_crossing s1 else s1
  let s3 := update_people_graph s2 s2.smoothed_people_count
  let s4 :=
    if s3.peak_count < s3.smoothed_people_count then
      { s3 with peak_count := s3.smoothed_people_count,
                peak_time_ms := s3.video_time_ms }
    else s3
  if (s4.smoothed_people_count : WithTop ℤ) < s4.offpeak_count ∧
      0 < s4.smoothed_people_count then
    { s4 with offpeak_count := (s4.smoothed_people_count : WithTop ℤ),
              offpeak_time_ms := s4.video_time_ms }
  else s4

/-- `on_smoothing_window_changed(value)`: rebuild a `deque(maxlen := value)`
from the last `value` stored samples, recompute the smoothed count when any
samples remain, and re-run the threshold check when crowd detection is
enabled. -/
def on_smoothing_window_changed (s : AppState) (value : ℕ) : AppState :=
  let current_history := s.people_count_history
  let refill := (lastN value current_history).foldl (dequePush value) []
  let s1 := { s with smoothing_window_size := value,
                     people_count_history := refill }
  let s2 :=
    if 0 < refill.length then
      { s1 with smoothed_people_count := pyRound (ratMean refill) }
    else s1
  if s2.crowd_detection_enabled then check_threshold_crossing s2 else s2

/-- `on_crowd_detection_toggled(enabled)`: disabling forces the alert state
back to normal (no history record is written on the `False` path). -/
def on_crowd_detection_toggled (s : AppState) (enabled : Bool) : AppState :=
  let s1 := { s with crowd_detection_enabled := enabled }
  if enabled then s1
  else
    let s2 := update_crowd_alert_status s1 false 0
    { s2 with threshold_alert_active := false }

/-- `on_crowd_size_threshold_changed(value)`: store the new threshold, then
force the alert state back to normal. -/
def on_crowd_size_threshold_changed (s : AppState) (value : ℤ) : AppState :=
  update_crowd_alert_status { s with crowd_size_threshold := value } false 0

/-- The video-timer step of `process_video_frame` (lines 2726-2734): when not
paused, add the wall-clock delta to `video_time_ms` only when it is below
1000 ms. `elapsed_ms` is `int((current_time - last_frame_time) * 1000)`. -/
def process_video_frame_timer (s : AppState) (elapsed_ms : ℕ) : AppState :=
  if s.paused then s
  else
    { s with video_time_ms :=
        if elapsed_ms < 1000 then s.video_time_ms + elapsed_ms
        else s.video_time_ms }

/-- The shape check of `update_heatmap` (lines 2119-2125): when a decaying
grid is stored and its shape differs from the downscaled dimensions, both
grids and the aggregate counter are reset. -/
def resolution_check (s : AppState) (low_h low_w : ℕ) : AppState :=
  match s.heatmap_accumulator with
  | some g =>
      if g.hDim = low_h ∧ g.wDim = low_w then s
      else { s with heatmap_accumulator := none,
                    aggregate_heatmap_accumulator := none,
                    aggregate_frame_count := 0 }
  | none => s

/-- The final cap of `update_heatmap` (lines 2198-2201): rescale the decaying
grid in place when its maximum exceeds 1.0. -/
def clip_acc (low_h low_w : ℕ) (f : ℕ → ℕ → ℚ) : ℕ → ℕ → ℚ :=
  if 1 < gridMax low_h low_w f then fun y x => f y x / gridMax low_h low_w f
  else f

/-- `update_heatmap(frame, boxes)` (lines 2111-2204), state part. `low_h` and
`low_w` are the downscaled frame dimensions `int(h * 0.2), int(w * 0.2)`.
If the stored grid shape differs, both grids and the aggregate counter are
reset; grids are created on demand; the decaying grid is decayed and receives
the transient layer scaled by the intensity; the aggregate grid receives the
unscaled layer (and the counter increments) only when the layer is nonzero;
finally the decaying grid is rescaled in place when its maximum exceeds 1. -/
def update_heatmap (blur : (ℕ → ℕ → ℚ) → ℕ → ℕ → ℚ) (spread : ℕ → ℚ)
    (s : AppState) (low_h low_w : ℕ) (boxes : List Box) : AppState :=
  let s1 := resolution_check s low_h low_w
  let acc := s1.heatmap_accumulator.getD (zeroGrid low_h low_w)
  let agg := s1.aggregate_heatmap_accumulator.getD (zeroGrid low_h low_w)
  let layer := transient_layer blur spread low_h low_w boxes
  { s1 with
    heatmap_accumulator :=
      some ⟨low_h, low_w,
        clip_acc low_h low_w
          (fun y x => heatmap_decay * acc.val y x + layer y x * heatmap_intensity)⟩,
    aggregate_heatmap_accumulator :=
      some (if 0 < gridSum low_h low_w layer then
          ⟨agg.hDim, agg.wDim, fun y x => agg.val y x + layer y x⟩
        else agg),
    aggregate_frame_count :=
      if 0 < gridSum low_h low_w layer then s1.aggregate_frame_count + 1
      else s1.aggregate_frame_count }

/-- The effect of the shape-mismatch branch of `update_heatmap` (lines
2120-2125): both grids dropped and the aggregate counter cleared. -/
def resetGrids (s : AppState) : AppState :=
  { s with heatmap_accumulator := none,
           aggregate_heatmap_accumulator := none,
           aggregate_frame_count := 0 }

/-- The state-resetting core of `stop_video` (lines 2584-2656): clear the
smoothing history and smoothed count, the timer, both heatmap grids and the
aggregate counter, the graph buffers, the peak / off-peak records and the
alert flag, and disable the heatmap. `threshold_history` is not touched
(the `update_crowd_alert_status(False)` call appends nothing). -/
def stop_video (s : AppState) : AppState :=
  let s1 :=
    { s with paused := false,
             people_count_history := [],
             smoothed_people_count := 0,
             video_time_ms := 0,
             heatmap_accumulator := none,
             aggregate_heatmap_accumulator := none,
             aggregate_frame_count := 0,
             people_data := [],
             time_data := [],
             peak_count := 0,
             peak_time_ms := 0,
             offpeak_count := ⊤,
             offpeak_time_ms := 0,
             threshold_alert_active := false }
  let s2 :=
    if s1.crowd_detection_enabled then update_crowd_alert_status s1 false 0
    else s1
  { s2 with heatmap_enabled := false }

/-- The state-resetting core of `restart_video` (lines 1940-1979): reset the
timer, the graph buffers, the alert flag and the peak / off-peak records, and
drop the decaying grid only when the heatmap is enabled. The smoothing
history, the smoothed count, the aggregate grid and its counter, and
`threshold_history` are not touched. (The pause flag is restored to its
prior value, and the subsequent first-frame processing is modeled as separate
operations.) -/
def restart_video (s : AppState) : AppState :=
  let s1 :=
    { s with video_time_ms := 0,
             people_data := [],
             time_data := [],
             heatmap_accumulator :=
               if s.heatmap_enabled then none else s.heatmap_accumulator,
             threshold_alert_active := false }
  let s2 := update_crowd_alert_status s1 false 0
  { s2 with peak_count := 0,
            peak_time_ms := 0,
            offpeak_count := ⊤,
            offpeak_time_ms := 0 }

/-- The loop-detected branch of `process_video_frame` (lines 2710-2724):
reset the timer and the graph buffers and drop the decaying grid when the
heatmap is enabled. -/
def loop_reset (s : AppState) : AppState :=
  { s with video_time_ms := 0,
           people_data := [],
           time_data := [],
           heatmap_accumulator :=
             if s.heatmap_enabled ∧ s.heatmap_accumulator.isSome then none
             else s.heatmap_accumulator }

/-! ## Operation alphabet -/

/-- One `update_heatmap` call: downscaled dimensions plus detection boxes. -/
structure HeatCall where
  low_h : ℕ
  low_w : ℕ
  boxes : List Box

/-- A sequence of `update_heatmap` calls applied from the initial state. -/
def applyHeatCalls (blur : (ℕ → ℕ → ℚ) → ℕ → ℕ → ℚ) (spread : ℕ → ℚ)
    (calls : List HeatCall) : AppState :=
  calls.foldl (fun s c => update_heatmap blur spread s c.low_h c.low_w c.boxes)
    initialState

/-- `np.sum(current_heatmap) > 0` for the final transient layer of a call:
the condition under which the call contributes to the aggregate grid. -/
def contributes (blur : (ℕ → ℕ → ℚ) → ℕ → ℕ → ℚ) (spread : ℕ → ℚ)
    (c : HeatCall) : Bool :=
  decide (0 < gridSum c.low_h c.low_w
    (transient_layer blur spread c.low_h c.low_w c.boxes))

/-- The normalized transient layers of the contributing calls, in order. -/
def contribLayers (blur : (ℕ → ℕ → ℚ) → ℕ → ℕ → ℚ) (spread : ℕ → ℚ)
    (calls : List HeatCall) : List (ℕ → ℕ → ℚ) :=
  (calls.filter (contributes blur spread)).map fun c =>
    transient_layer blur spread c.low_h c.low_w c.boxes

/-- Height of the stored decaying grid (0 when absent). -/
def heat_acc_h (s : AppState) : ℕ :=
  match s.heatmap_accumulator with
  | some g => g.hDim
  | none => 0

/-- Width of the stored decaying grid (0 when absent). -/
def heat_acc_w (s : AppState) : ℕ :=
  match s.heatmap_accumulator with
  | some g => g.wDim
  | none => 0

/-- A cell of the stored decaying grid (0 when absent). -/
def heat_acc_val (s : AppState) (y x : ℕ) : ℚ :=
  match s.heatmap_accumulator with
  | some g => g.val y x
  | none => 0

/-- A cell of the stored aggregate grid (0 when absent). -/
def agg_val (s : AppState) (y x : ℕ) : ℚ :=
  match s.aggregate_heatmap_accumulator with
  | some g => g.val y x
  | none => 0

/-- The operations modeled in this file, as one alphabet (used to state that
no operation ever removes an entry from `threshold_history`). -/
inductive AppOp where
  | frame (people_count : ℕ)
  | timer (elapsed_ms : ℕ)
  | heat (c : HeatCall)
  | windowChanged (value : ℕ)
  | crowdToggled (enabled : Bool)
  | thresholdChanged (value : ℤ)
  | stop
  | restart
  | loop

/-- Dispatch of one operation on the application state. -/
def applyOp (blur : (ℕ → ℕ → ℚ) → ℕ → ℕ → ℚ) (spread : ℕ → ℚ)
    (s : AppState) : AppOp → AppState
  | AppOp.frame c => display_detection_results s c
  | AppOp.timer e => process_video_frame_timer s e
  | AppOp.heat c => update_heatmap blur spread s c.low_h c.low_w c.boxes
  | AppOp.windowChanged v => on_smoothing_window_changed s v
  | AppOp.crowdToggled b => on_crowd_detection_toggled s b
  | AppOp.thresholdChanged v => on_crowd_size_threshold_changed s v
  | AppOp.stop => stop_video s
  | AppOp.restart => restart_video s
  | AppOp.loop => loop_reset s

/-! ## List lemmas for the smoothing window -/

theorem lastN_length (n : ℕ) (l : List ℕ) : (lastN n l).length = min n l.length := by
  simp [lastN]
  omega

theorem lastN_of_le (n : ℕ) (l : List ℕ) (h : l.length ≤ n) : lastN n l = l := by
  simp [lastN, Nat.sub_eq_zero_of_le h]

theorem lastN_min_length (n : ℕ) (l : List ℕ) : lastN (min n l.length) l = lastN n l := by
  unfold lastN
  congr 1
  omega

theorem lastN_append_lastN (n : ℕ) (l l2 : List ℕ) :
    lastN n (lastN n l ++ l2) = lastN n (l ++ l2) := by
  rcases le_or_lt l.length n with h | h
  · rw [lastN_of_le n l h]
  · unfold lastN
    rw [List.drop_append_eq_append_drop, List.drop_append_eq_append_drop,
      List.drop_drop]
    have h1 : (List.drop (l.length - n) l).length = n := by
      rw [List.length_drop]; omega
    rw [List.length_append, List.length_append, h1]
    have e1 : l.length - n + (n + l2.length - n) = l.length + l2.length - n := by
      omega
    have e2 : n + l2.length - n - n = l.length + l2.length - n - l.length := by
      omega
    rw [e1, e2]

theorem foldl_dequePush (N : ℕ) (xs : List ℕ) :
    ∀ acc : List ℕ, acc.length ≤ N →
      xs.foldl (dequePush N) acc = lastN N (acc ++ xs) := by
  induction xs with
  | nil =>
      intro acc h
      rw [List.foldl_nil, List.append_nil, lastN_of_le N acc h]
  | cons x xs ih =>
      intro acc h
      rw [List.foldl_cons, ih (dequePush N acc x) (by rw [dequePush, lastN_length]; omega)]
      rw [dequePush, lastN_append_lastN]
      simp

theorem dequePush_length (N : ℕ) (l : List ℕ) (x : ℕ) :
    (dequePush N l x).length = min N (l.length + 1) := by
  rw [dequePush, lastN_length]
  simp

/-! ## Field lemmas for the alert and display steps -/

theorem ucas_history (s : AppState) (b : Bool) (c : ℤ) :
    (update_crowd_alert_status s b c).threshold_history =
      s.threshold_history ++
        (if b then [⟨s.video_time_ms, c, s.crowd_size_threshold⟩] else []) := by
  unfold update_crowd_alert_status
  cases b <;> simp

theorem ucas_active (s : AppState) (b : Bool) (c : ℤ) :
    (update_crowd_alert_status s b c).threshold_alert_active = b := by
  unfold update_crowd_alert_status
  cases b <;> simp

theorem ucas_count_history (s : AppState) (b : Bool) (c : ℤ) :
    (update_crowd_alert_status s b c).people_count_history = s.people_count_history := by
  unfold update_crowd_alert_status; cases b <;> simp

theorem ucas_smoothed (s : AppState) (b : Bool) (c : ℤ) :
    (update_crowd_alert_status s b c).smoothed_people_count = s.smoothed_people_count := by
  unfold update_crowd_alert_status; cases b <;> simp

theorem ucas_window (s : AppState) (b : Bool) (c : ℤ) :
    (update_crowd_alert_status s b c).smoothing_window_size = s.smoothing_window_size := by
  unfold update_crowd_alert_status; cases b <;> simp

theorem ucas_enabled (s : AppState) (b : Bool) (c : ℤ) :
    (update_crowd_alert_status s b c).crowd_detection_enabled = s.crowd_detection_enabled := by
  unfold update_crowd_alert_status; cases b <;> simp

theorem ucas_threshold (s : AppState) (b : Bool) (c : ℤ) :
    (update_crowd_alert_status s b c).crowd_size_threshold = s.crowd_size_threshold := by
  unfold update_crowd_alert_status; cases b <;> simp

theorem ucas_peak (s : AppState) (b : Bool) (c : ℤ) :
    (update_crowd_alert_status s b c).peak_count = s.peak_count := by
  unfold update_crowd_alert_status; cases b <;> simp

theorem ucas_peak_time (s : AppState) (b : Bool) (c : ℤ) :
    (update_crowd_alert_status s b c).peak_time_ms = s.peak_time_ms := by
  unfold update_crowd_alert_status; cases b <;> simp

theorem ucas_offpeak (s : AppState) (b : Bool) (c : ℤ) :
    (update_crowd_alert_status s b c).offpeak_count = s.offpeak_count := by
  unfold update_crowd_alert_status; cases b <;> simp

theorem ucas_offpeak_time (s : AppState) (b : Bool) (c : ℤ) :
    (update_crowd_alert_status s b c).offpeak_time_ms = s.offpeak_time_ms := by
  unfold update_crowd_alert_status; cases b <;> simp

theorem ucas_video_time (s : AppState) (b : Bool) (c : ℤ) :
    (update_crowd_alert_status s b c).video_time_ms = s.video_time_ms := by
  unfold update_crowd_alert_status; cases b <;> simp

theorem ucas_paused (s : AppState) (b : Bool) (c : ℤ) :
    (update_crowd_alert_status s b c).paused = s.paused := by
  unfold update_crowd_alert_status; cases b <;> simp

theorem ucas_time_data (s : AppState) (b : Bool) (c : ℤ) :
    (update_crowd_alert_status s b c).time_data = s.time_data := by
  unfold update_crowd_alert_status; cases b <;> simp

theorem ucas_people_data (s : AppState) (b : Bool) (c : ℤ) :
    (update_crowd_alert_status s b c).people_data = s.people_data := by
  unfold update_crowd_alert_status; cases b <;> simp

theorem ucas_heat_acc (s : AppState) (b : Bool) (c : ℤ) :
    (update_crowd_alert_status s b c).heatmap_accumulator = s.heatmap_accumulator := by
  unfold update_crowd_alert_status; cases b <;> simp

theorem ucas_heat_agg (s : AppState) (b : Bool) (c : ℤ) :
    (update_crowd_alert_status s b c).aggregate_heatmap_accumulator =
      s.aggregate_heatmap_accumulator := by
  unfold update_crowd_alert_status; cases b <;> simp

theorem ucas_heat_count (s : AppState) (b : Bool) (c : ℤ) :
    (update_crowd_alert_status s b c).aggregate_frame_count = s.aggregate_frame_count := by
  unfold update_crowd_alert_status; cases b <;> simp

theorem ucas_heat_enabled (s : AppState) (b : Bool) (c : ℤ) :
    (update_crowd_alert_status s b c).heatmap_enabled = s.heatmap_enabled := by
  unfold update_crowd_alert_status; cases b <;> simp

theorem ctc_active (s : AppState) :
    (check_threshold_crossing s).threshold_alert_active =
      decide (s.crowd_size_threshold < s.smoothed_people_count) := by
  unfold check_threshold_crossing
  split <;> split <;> simp_all [ucas_active]

theorem ctc_history (s : AppState) :
    (check_threshold_crossing s).threshold_history =
      s.threshold_history ++
        (if s.threshold_alert_active = false ∧
            s.crowd_size_threshold < s.smoothed_people_count then
          [⟨s.video_time_ms, s.smoothed_people_count, s.crowd_size_threshold⟩]
        else []) := by
  unfold check_threshold_crossing
  split <;> split <;> simp_all [ucas_history]

theorem ctc_count_history (s : AppState) :
    (check_threshold_crossing s).people_count_history = s.people_count_history := by
  unfold check_threshold_crossing; split <;> split <;> simp [ucas_count_history]

theorem ctc_smoothed (s : AppState) :
    (check_threshold_crossing s).smoothed_people_count = s.smoothed_people_count := by
  unfold check_threshold_crossing; split <;> split <;> simp [ucas_smoothed]

theorem ctc_window (s : AppState) :
    (check_threshold_crossing s).smoothing_window_size = s.smoothing_window_size := by
  unfold check_threshold_crossing; split <;> split <;> simp [ucas_window]

theorem ctc_enabled (s : AppState) :
    (check_threshold_crossing s).crowd_detection_enabled = s.crowd_detection_enabled := by
  unfold check_threshold_crossing; split <;> split <;> simp [ucas_enabled]

theorem ctc_threshold (s : AppState) :
    (check_threshold_crossing s).crowd_size_threshold = s.crowd_size_threshold := by
  unfold check_threshold_crossing; split <;> split <;> simp [ucas_threshold]

theorem ctc_peak (s : AppState) :
    (check_threshold_crossing s).peak_count = s.peak_count := by
  unfold check_threshold_crossing; split <;> split <;> simp [ucas_peak]

theorem ctc_peak_time (s : AppState) :
    (check_threshold_crossing s).peak_time_ms = s.peak_time_ms := by
  unfold check_threshold_crossing; split <;> split <;> simp [ucas_peak_time]

theorem ctc_offpeak (s : AppState) :
    (check_threshold_crossing s).offpeak_count = s.offpeak_count := by
  unfold check_threshold_crossing; split <;> split <;> simp [ucas_offpeak]

theorem ctc_offpeak_time (s : AppState) :
    (check_threshold_crossing s).offpeak_time_ms = s.offpeak_time_ms := by
  unfold check_threshold_crossing; split <;> split <;> simp [ucas_offpeak_time]

theorem ctc_video_time (s : AppState) :
    (check_threshold_crossing s).video_time_ms = s.video_time_ms := by
  unfold check_threshold_crossing; split <;> split <;> simp [ucas_video_time]

theorem ctc_paused (s : AppState) :
    (check_threshold_crossing s).paused = s.paused := by
  unfold check_threshold_crossing; split <;> split <;> simp [ucas_paused]

theorem ctc_time_data (s : AppState) :
    (check_threshold_crossing s).time_data = s.time_data := by
  unfold check_threshold_crossing; split <;> split <;> simp [ucas_time_data]

theorem ctc_people_data (s : AppState) :
    (check_threshold_crossing s).people_data = s.people_data := by
  unfold check_threshold_crossing; split <;> split <;> simp [ucas_people_data]

theorem ctc_heat_acc (s : AppState) :
    (check_threshold_crossing s).heatmap_accumulator = s.heatmap_accumulator := by
  unfold check_threshold_crossing; split <;> split <;> simp [ucas_heat_acc]

theorem ctc_heat_agg (s : AppState) :
    (check_threshold_crossing s).aggregate_heatmap_accumulator =
      s.aggregate_heatmap_accumulator := by
  unfold check_threshold_crossing; split <;> split <;> simp [ucas_heat_agg]

theorem ctc_heat_count (s : AppState) :
    (check_threshold_crossing s).aggregate_frame_count = s.aggregate_frame_count := by
  unfold check_threshold_crossing; split <;> split <;> simp [ucas_heat_count]

theorem ctc_heat_enabled (s : AppState) :
    (check_threshold_crossing s).heatmap_enabled = s.heatmap_enabled := by
  unfold check_threshold_crossing; split <;> split <;> simp [ucas_heat_enabled]

theorem display_count_history (s : AppState) (c : ℕ) :
    (display_detection_results s c).people_count_history =
      dequePush s.smoothing_window_size s.people_count_history c := by
  unfold display_detection_results update_people_graph
  simp only [apply_ite AppState.people_count_history, ctc_count_history, ite_self]

theorem display_smoothed (s : AppState) (c : ℕ) :
    (display_detection_results s c).smoothed_people_count =
      if 0 < (dequePush s.smoothing_window_size s.people_count_history c).length then
        pyRound (ratMean (dequePush s.smoothing_window_size s.people_count_history c))
      else (c : ℤ) := by
  unfold display_detection_results update_people_graph
  simp only [apply_ite AppState.smoothed_people_count, ctc_smoothed, ite_self]

theorem display_window (s : AppState) (c : ℕ) :
    (display_detection_results s c).smoothing_window_size = s.smoothing_window_size := by
  unfold display_detection_results update_people_graph
  simp only [apply_ite AppState.smoothing_window_size, ctc_window, ite_self]

theorem display_enabled (s : AppState) (c : ℕ) :
    (display_detection_results s c).crowd_detection_enabled = s.crowd_detection_enabled := by
  unfold display_detection_results update_people_graph
  simp only [apply_ite AppState.crowd_detection_enabled, ctc_enabled, ite_self]

theorem display_threshold (s : AppState) (c : ℕ) :
    (display_detection_results s c).crowd_size_threshold = s.crowd_size_threshold := by
  unfold display_detection_results update_people_graph
  simp only [apply_ite AppState.crowd_size_threshold, ctc_threshold, ite_self]

theorem display_video_time (s : AppState) (c : ℕ) :
    (display_detection_results s c).video_time_ms = s.video_time_ms := by
  unfold display_detection_results update_people_graph
  simp only [apply_ite AppState.video_time_ms, ctc_video_time, ite_self]

theorem display_paused (s : AppState) (c : ℕ) :
    (display_detection_results s c).paused = s.paused := by
  unfold display_detection_results update_people_graph
  simp only [apply_ite AppState.paused, ctc_paused, ite_self]

theorem display_active (s : AppState) (c : ℕ) :
    (display_detection_results s c).threshold_alert_active =
      if s.crowd_detection_enabled then
        decide (s.crowd_size_threshold <
          (display_detection_results s c).smoothed_people_count)
      else s.threshold_alert_active := by
  rw [display_smoothed]
  unfold display_detection_results update_people_graph
  simp only [apply_ite AppState.threshold_alert_active, ctc_active, ctc_smoothed,
    ite_self]

theorem display_thr_history (s : AppState) (c : ℕ) :
    (display_detection_results s c).threshold_history =
      s.threshold_history ++
        (if s.crowd_detection_enabled = true ∧ s.threshold_alert_active = false ∧
            s.crowd_size_threshold <
              (display_detection_results s c).smoothed_people_count then
          [⟨s.video_time_ms, (display_detection_results s c).smoothed_people_count,
            s.crowd_size_threshold⟩]
        else []) := by
  rw [display_smoothed]
  unfold display_detection_results update_people_graph
  cases henb : s.crowd_detection_enabled <;>
    simp only [apply_ite AppState.threshold_history, ctc_history, ite_self, henb] <;>
    simp

theorem display_peak (s : AppState) (c : ℕ) :
    (display_detection_results s c).peak_count =
      if s.peak_count < (display_detection_results s c).smoothed_people_count then
        (display_detection_results s c).smoothed_people_count
      else s.peak_count := by
  rw [display_smoothed]
  unfold display_detection_results update_people_graph
  simp only [apply_ite AppState.peak_count, apply_ite AppState.smoothed_people_count,
    ctc_peak, ctc_smoothed, ite_self]

theorem display_offpeak (s : AppState) (c : ℕ) :
    (display_detection_results s c).offpeak_count =
      if ((display_detection_results s c).smoothed_people_count : WithTop ℤ) <
            s.offpeak_count ∧
          0 < (display_detection_results s c).smoothed_people_count then
        ((display_detection_results s c).smoothed_people_count : WithTop ℤ)
      else s.offpeak_count := by
  rw [display_smoothed]
  unfold display_detection_results update_people_graph
  simp only [apply_ite AppState.offpeak_count, apply_ite AppState.smoothed_people_count,
    ctc_offpeak, ctc_smoothed, ite_self]

theorem display_fold_window (xs : List ℕ) (s : AppState) :
    (xs.foldl display_detection_results s).smoothing_window_size =
      s.smoothing_window_size := by
  induction xs generalizing s with
  | nil => rfl
  | cons x xs ih => rw [List.foldl_cons, ih, display_window]

theorem display_fold_history (xs : List ℕ) (s : AppState) :
    (xs.foldl display_detection_results s).people_count_history =
      xs.foldl (dequePush s.smoothing_window_size) s.people_count_history := by
  induction xs generalizing s with
  | nil => rfl
  | cons x xs ih =>
      rw [List.foldl_cons, List.foldl_cons, ih, display_count_history, display_window]

theorem fold_display_init_history (N : ℕ) (xs : List ℕ) :
    (xs.foldl display_detection_results
      { initialState with smoothing_window_size := N }).people_count_history =
      lastN N xs := by
  rw [display_fold_history]
  show xs.foldl (dequePush N) [] = lastN N xs
  rw [foldl_dequePush N xs [] (by simp)]
  simp

/-- C1: for every sequence of raw counts pushed into the smoothing window of
size `N`, after each push the held history is the last `min N len` samples of
the pushed sequence and the smoothed count is the (round-half-even) rounded
mean of exactly those samples. -/
theorem smoothing_push_spec (N : ℕ) (hN : 1 ≤ N) (xs : List ℕ) (hxs : xs ≠ []) :
    (xs.foldl display_detection_results
        { initialState with smoothing_window_size := N }).people_count_history =
      lastN (min N xs.length) xs ∧
    (xs.foldl display_detection_results
        { initialState with smoothing_window_size := N }).smoothed_people_count =
      pyRound (ratMean (lastN (min N xs.length) xs)) := by
  constructor
  · rw [lastN_min_length]
    exact fold_display_init_history N xs
  · rcases List.eq_nil_or_concat xs with rfl | ⟨ys, c, rfl⟩
    · exact absurd rfl hxs
    · simp only [List.concat_eq_append] at hxs ⊢
      rw [List.foldl_append, List.foldl_cons, List.foldl_nil, display_smoothed,
        display_fold_window, fold_display_init_history]
      show (if 0 < (dequePush N (lastN N ys) c).length then
          pyRound (ratMean (dequePush N (lastN N ys) c)) else (c : ℤ)) = _
      have hlen : 0 < (dequePush N (lastN N ys) c).length := by
        rw [dequePush_length, lastN_length]; omega
      rw [if_pos hlen, lastN_min_length, dequePush, lastN_append_lastN]

/-- Witness for C1 at `N = 3`, pushes `[1, 2, 5, 7]`. -/
theorem smoothing_push_spec_witness :
    (1 ≤ 3 ∧ ([1, 2, 5, 7] : List ℕ) ≠ []) ∧
    ((([1, 2, 5, 7] : List ℕ).foldl display_detection_results
        { initialState with smoothing_window_size := 3 }).people_count_history =
      lastN (min 3 ([1, 2, 5, 7] : List ℕ).length) [1, 2, 5, 7] ∧
    (([1, 2, 5, 7] : List ℕ).foldl display_detection_results
        { initialState with smoothing_window_size := 3 }).smoothed_people_count =
      pyRound (ratMean (lastN (min 3 ([1, 2, 5, 7] : List ℕ).length) [1, 2, 5, 7]))) :=
  ⟨⟨by decide, by decide⟩, smoothing_push_spec 3 (by decide) [1, 2, 5, 7] (by decide)⟩

theorem oswc_history (s : AppState) (v : ℕ) :
    (on_smoothing_window_changed s v).people_count_history =
      (lastN v s.people_count_history).foldl (dequePush v) [] := by
  unfold on_smoothing_window_changed
  simp only [apply_ite AppState.people_count_history, ctc_count_history, ite_self]

theorem oswc_smoothed (s : AppState) (v : ℕ) :
    (on_smoothing_window_changed s v).smoothed_people_count =
      if 0 < ((lastN v s.people_count_history).foldl (dequePush v) []).length then
        pyRound (ratMean ((lastN v s.people_count_history).foldl (dequePush v) []))
      else s.smoothed_people_count := by
  unfold on_smoothing_window_changed
  simp only [apply_ite AppState.smoothed_people_count, ctc_smoothed, ite_self]

theorem refill_eq_lastN (M : ℕ) (l : List ℕ) :
    (lastN M l).foldl (dequePush M) [] = lastN M l := by
  rw [foldl_dequePush M _ [] (by simp)]
  simp only [List.nil_append]
  exact lastN_of_le _ _ (by rw [lastN_length]; omega)

/-- C3: resizing the smoothing window to `M` (slider range 1-60) keeps exactly
the most recent `min M previous_length` samples in order, and when any sample
is held the smoothed count is immediately recomputed as the rounded mean of
the kept samples. -/
theorem smoothing_resize_spec (s : AppState) (M : ℕ) (hM1 : 1 ≤ M)
    (hM2 : M ≤ 60) :
    (on_smoothing_window_changed s M).people_count_history =
      lastN (min M s.people_count_history.length) s.people_count_history ∧
    (on_smoothing_window_changed s M).people_count_history.length =
      min M s.people_count_history.length ∧
    (s.people_count_history ≠ [] →
      (on_smoothing_window_changed s M).smoothed_people_count =
        pyRound (ratMean ((on_smoothing_window_changed s M).people_count_history))) := by
  have h1 : (on_smoothing_window_changed s M).people_count_history =
      lastN M s.people_count_history := by
    rw [oswc_history, refill_eq_lastN]
  refine ⟨by rw [h1, lastN_min_length], by rw [h1, lastN_length], fun hne => ?_⟩
  have hpos : 0 < s.people_count_history.length := List.length_pos.mpr hne
  have hlen : 0 < ((lastN M s.people_count_history).foldl (dequePush M) []).length := by
    rw [refill_eq_lastN, lastN_length]; omega
  rw [oswc_smoothed, if_pos hlen, h1, refill_eq_lastN]

/-- Witness for C3: history `[4, 4, 9]` resized to window 2. -/
theorem smoothing_resize_spec_witness :
    (1 ≤ 2 ∧ 2 ≤ 60) ∧
    ((on_smoothing_window_changed
        { initialState with people_count_history := [4, 4, 9] } 2).people_count_history =
      lastN (min 2 ([4, 4, 9] : List ℕ).length) [4, 4, 9] ∧
    (on_smoothing_window_changed
        { initialState with people_count_history := [4, 4, 9] } 2).people_count_history.length =
      min 2 ([4, 4, 9] : List ℕ).length ∧
    (([4, 4, 9] : List ℕ) ≠ [] →
      (on_smoothing_window_changed
          { initialState with people_count_history := [4, 4, 9] } 2).smoothed_people_count =
        pyRound (ratMean ((on_smoothing_window_changed
          { initialState with people_count_history := [4, 4, 9] } 2).people_count_history)))) :=
  ⟨⟨by decide, by decide⟩,
    smoothing_resize_spec { initialState with people_count_history := [4, 4, 9] } 2
      (by decide) (by decide)⟩

/-- C2: when crowd detection is enabled, after a smoothed-count update the
alert flag is set iff the smoothed count strictly exceeds the threshold. -/
theorem alert_iff_above_threshold (s : AppState) (c : ℕ)
    (hen : s.crowd_detection_enabled = true) :
    ((display_detection_results s c).threshold_alert_active = true ↔
      (display_detection_results s c).crowd_size_threshold <
        (display_detection_results s c).smoothed_people_count) := by
  rw [display_active, display_threshold, hen]
  simp

/-- Witness for C2: enabled state, raw count 20 against threshold 10. -/
theorem alert_iff_above_threshold_witness :
    ({ initialState with crowd_detection_enabled := true } : AppState).crowd_detection_enabled
        = true ∧
    ((display_detection_results
        { initialState with crowd_detection_enabled := true } 20).threshold_alert_active
          = true ↔
      (display_detection_results
        { initialState with crowd_detection_enabled := true } 20).crowd_size_threshold <
        (display_detection_results
          { initialState with crowd_detection_enabled := true } 20).smoothed_people_count) :=
  ⟨rfl, alert_iff_above_threshold { initialState with crowd_detection_enabled := true } 20 rfl⟩

theorem toggled_history (s : AppState) (b : Bool) :
    (on_crowd_detection_toggled s b).threshold_history = s.threshold_history := by
  unfold on_crowd_detection_toggled
  cases b <;> simp [ucas_history]

theorem threshold_changed_history (s : AppState) (v : ℤ) :
    (on_crowd_size_threshold_changed s v).threshold_history = s.threshold_history := by
  unfold on_crowd_size_threshold_changed
  simp [ucas_history]

/-- C9: a `{timestamp, count, threshold}` record is appended exactly on a
normal-to-alert transition of a smoothed-count update; updates while already
in alert append nothing, and the forced transitions to normal from disabling
crowd detection or changing the threshold append nothing. -/
theorem alert_history_on_transition :
    (∀ (s : AppState) (c : ℕ),
      (display_detection_results s c).threshold_history =
        s.threshold_history ++
          (if s.crowd_detection_enabled = true ∧ s.threshold_alert_active = false ∧
              s.crowd_size_threshold <
                (display_detection_results s c).smoothed_people_count then
            [⟨s.video_time_ms, (display_detection_results s c).smoothed_people_count,
              s.crowd_size_threshold⟩]
          else [])) ∧
    (∀ (s : AppState) (b : Bool),
      (on_crowd_detection_toggled s b).threshold_history = s.threshold_history) ∧
    (∀ (s : AppState) (v : ℤ),
      (on_crowd_size_threshold_changed s v).threshold_history = s.threshold_history) :=
  ⟨display_thr_history, toggled_history, threshold_changed_history⟩

theorem display_offpeak_pos (s : AppState) (c : ℕ)
    (h : (0 : WithTop ℤ) < s.offpeak_count) :
    (0 : WithTop ℤ) < (display_detection_results s c).offpeak_count := by
  rw [display_offpeak]
  split_ifs with hc
  · exact_mod_cast hc.2
  · exact h

theorem fold_display_offpeak_pos (xs : List ℕ) (s : AppState)
    (h : (0 : WithTop ℤ) < s.offpeak_count) :
    (0 : WithTop ℤ) < (xs.foldl display_detection_results s).offpeak_count := by
  induction xs generalizing s with
  | nil => exact h
  | cons x xs ih => exact ih _ (display_offpeak_pos _ _ h)

theorem pyRound_intCast (z : ℤ) : pyRound ((z : ℚ)) = z := by
  norm_num [pyRound]

theorem ratMean_single (c : ℕ) : ratMean [c] = (c : ℚ) := by
  simp [ratMean]

theorem dequePush_one (l : List ℕ) (c : ℕ) : dequePush 1 l c = [c] := by
  unfold dequePush lastN
  simp

theorem display_smoothed_window_one (s : AppState) (c : ℕ)
    (hw : s.smoothing_window_size = 1) :
    (display_detection_results s c).smoothed_people_count = (c : ℤ) := by
  rw [display_smoothed, hw, dequePush_one]
  rw [if_pos (by simp), ratMean_single]
  have hc : ((c : ℕ) : ℚ) = (((c : ℕ) : ℤ) : ℚ) := by push_cast; ring
  rw [hc, pyRound_intCast]

theorem display_win1_offpeak (s : AppState) (c : ℕ)
    (hw : s.smoothing_window_size = 1) :
    (display_detection_results s c).offpeak_count =
      if ((c : ℤ) : WithTop ℤ) < s.offpeak_count ∧ 0 < (c : ℤ) then
        ((c : ℤ) : WithTop ℤ)
      else s.offpeak_count := by
  rw [display_offpeak, display_smoothed_window_one s c hw]

/-- C4: the peak record updates exactly when the smoothed count strictly
exceeds it, the off-peak record updates exactly when the smoothed count is
strictly positive and strictly below it; peak starts at 0, off-peak at
infinity, a zero count is never recorded as off-peak, and feeding
`[0, 0, 5, 3]` (window 1, so the smoothed counts are the raw ones) leaves
off-peak at 3. -/
theorem peak_offpeak_spec :
    (∀ (s : AppState) (c : ℕ),
      ((display_detection_results s c).peak_count ≠ s.peak_count ↔
        s.peak_count < (display_detection_results s c).smoothed_people_count) ∧
      ((display_detection_results s c).offpeak_count ≠ s.offpeak_count ↔
        ((display_detection_results s c).smoothed_people_count : WithTop ℤ) <
            s.offpeak_count ∧
          0 < (display_detection_results s c).smoothed_people_count)) ∧
    (initialState.peak_count = 0 ∧ initialState.offpeak_count = ⊤) ∧
    (∀ (N : ℕ) (xs : List ℕ),
      (xs.foldl display_detection_results
          { initialState with smoothing_window_size := N }).offpeak_count ≠
        ((0 : ℤ) : WithTop ℤ)) ∧
    (([0, 0, 5, 3] : List ℕ).foldl display_detection_results
        { initialState with smoothing_window_size := 1 }).offpeak_count =
      ((3 : ℤ) : WithTop ℤ) := by
  refine ⟨fun s c => ⟨?_, ?_⟩, ⟨rfl, rfl⟩, fun N xs => ?_, ?_⟩
  · rw [display_peak]
    split_ifs with h
    · exact ⟨fun _ => h, fun _ => ne_of_gt h⟩
    · simp [h]
  · rw [display_offpeak]
    split_ifs with h
    · constructor
      · exact fun _ => h
      · exact fun _ => ne_of_lt h.1
    · simp [h]
  · have hpos : (0 : WithTop ℤ) <
        (xs.foldl display_detection_results
          { initialState with smoothing_window_size := N }).offpeak_count :=
      fold_display_offpeak_pos xs _ (by
        show (0 : WithTop ℤ) < ⊤
        exact WithTop.coe_lt_top 0)
    exact (ne_of_gt hpos)
  · rw [show (([0, 0, 5, 3] : List ℕ).foldl display_detection_results
        { initialState with smoothing_window_size := 1 }) =
        display_detection_results (display_detection_results
          (display_detection_results (display_detection_results
            { initialState with smoothing_window_size := 1 } 0) 0) 5) 3 from rfl]
    have w0 : ({ initialState with smoothing_window_size := 1 } : AppState).smoothing_window_size = 1 := rfl
    have w1 := (display_window { initialState with smoothing_window_size := 1 } 0).trans w0
    have w2 := (display_window _ 0).trans w1
    have w3 := (display_window _ 5).trans w2
    have e1 : (display_detection_results
        { initialState with smoothing_window_size := 1 } 0).offpeak_count = ⊤ := by
      rw [display_win1_offpeak _ _ w0]
      norm_num
      rfl
    have e2 : (display_detection_results (display_detection_results
        { initialState with smoothing_window_size := 1 } 0) 0).offpeak_count = ⊤ := by
      rw [display_win1_offpeak _ _ w1]
      norm_num
      exact e1
    have e3 : (display_detection_results (display_detection_results
        (display_detection_results
          { initialState with smoothing_window_size := 1 } 0) 0) 5).offpeak_count =
        ((5 : ℤ) : WithTop ℤ) := by
      rw [display_win1_offpeak _ _ w2, e2]
      norm_num
    rw [display_win1_offpeak _ _ w3, e3]
    norm_num
    decide

/-- C8: the video-time counter advances, per frame step, by at most the
1000 ms cap (a step whose wall-clock delta is 1000 ms or more adds nothing,
and a smaller delta while playing is added exactly). -/
theorem video_timer_cap :
    ∀ (s : AppState) (e : ℕ),
      s.video_time_ms ≤ (process_video_frame_timer s e).video_time_ms ∧
      (process_video_frame_timer s e).video_time_ms ≤ s.video_time_ms + 1000 ∧
      (1000 ≤ e →
        (process_video_frame_timer s e).video_time_ms = s.video_time_ms) ∧
      (e < 1000 → s.paused = false →
        (process_video_frame_timer s e).video_time_ms = s.video_time_ms + e) := by
  intro s e
  have hres : (process_video_frame_timer s e).video_time_ms =
      if s.paused then s.video_time_ms
      else if e < 1000 then s.video_time_ms + e else s.video_time_ms := by
    unfold process_video_frame_timer
    split_ifs <;> rfl
  rw [hres]
  refine ⟨?_, ?_, ?_, ?_⟩
  · split_ifs <;> omega
  · split_ifs <;> omega
  · intro h1
    split_ifs <;> omega
  · intro h1 h2
    simp [h1, h2]

/-! ## Heatmap lemmas -/

theorem uh_acc (blur : (ℕ → ℕ → ℚ) → ℕ → ℕ → ℚ) (spread : ℕ → ℚ)
    (s : AppState) (low_h low_w : ℕ) (boxes : List Box) :
    (update_heatmap blur spread s low_h low_w boxes).heatmap_accumulator =
      some ⟨low_h, low_w,
        clip_acc low_h low_w
          (fun y x =>
            heatmap_decay *
              ((resolution_check s low_h low_w).heatmap_accumulator.getD
                (zeroGrid low_h low_w)).val y x +
              transient_layer blur spread low_h low_w boxes y x *
                heatmap_intensity)⟩ := rfl

theorem uh_agg (blur : (ℕ → ℕ → ℚ) → ℕ → ℕ → ℚ) (spread : ℕ → ℚ)
    (s : AppState) (low_h low_w : ℕ) (boxes : List Box) :
    (update_heatmap blur spread s low_h low_w boxes).aggregate_heatmap_accumulator =
      some (if 0 < gridSum low_h low_w (transient_layer blur spread low_h low_w boxes)
        then
          ⟨((resolution_check s low_h low_w).aggregate_heatmap_accumulator.getD
              (zeroGrid low_h low_w)).hDim,
            ((resolution_check s low_h low_w).aggregate_heatmap_accumulator.getD
              (zeroGrid low_h low_w)).wDim,
            fun y x =>
              ((resolution_check s low_h low_w).aggregate_heatmap_accumulator.getD
                (zeroGrid low_h low_w)).val y x +
                transient_layer blur spread low_h low_w boxes y x⟩
        else (resolution_check s low_h low_w).aggregate_heatmap_accumulator.getD
          (zeroGrid low_h low_w)) := rfl

theorem uh_agg_count (blur : (ℕ → ℕ → ℚ) → ℕ → ℕ → ℚ) (spread : ℕ → ℚ)
    (s : AppState) (low_h low_w : ℕ) (boxes : List Box) :
    (update_heatmap blur spread s low_h low_w boxes).aggregate_frame_count =
      if 0 < gridSum low_h low_w (transient_layer blur spread low_h low_w boxes)
      then (resolution_check s low_h low_w).aggregate_frame_count + 1
      else (resolution_check s low_h low_w).aggregate_frame_count := rfl

/-- C6: whenever the downscaled dimensions of an `update_heatmap` call differ
from the stored grid shape, the call behaves exactly as on a state whose two
grids have been dropped (recreated all-zero on demand) and whose aggregate
counter has been cleared: the reset happens before the contribution of the
call is applied, and no error is raised (the step is total). -/
theorem heatmap_resolution_reset (blur : (ℕ → ℕ → ℚ) → ℕ → ℕ → ℚ)
    (spread : ℕ → ℚ) (s : AppState) (g : HGrid) (low_h low_w : ℕ)
    (boxes : List Box) (hacc : s.heatmap_accumulator = some g)
    (hne : ¬(g.hDim = low_h ∧ g.wDim = low_w)) :
    update_heatmap blur spread s low_h low_w boxes =
      update_heatmap blur spread (resetGrids s) low_h low_w boxes := by
  have h1 : resolution_check s low_h low_w = resetGrids s := by
    unfold resolution_check resetGrids
    rw [hacc]
    exact if_neg hne
  have h2 : resolution_check (resetGrids s) low_h low_w = resetGrids s := rfl
  unfold update_heatmap
  rw [h1, h2]

/-- Witness for C6: a stored 2 by 2 grid hit by a 1 by 1 update. -/
theorem heatmap_resolution_reset_witness :
    ({ initialState with heatmap_accumulator := some (zeroGrid 2 2) } : AppState).heatmap_accumulator
        = some (zeroGrid 2 2) ∧
    ¬((zeroGrid 2 2).hDim = 1 ∧ (zeroGrid 2 2).wDim = 1) ∧
    update_heatmap id (fun _ => 0)
        { initialState with heatmap_accumulator := some (zeroGrid 2 2) } 1 1 [] =
      update_heatmap id (fun _ => 0)
        (resetGrids { initialState with heatmap_accumulator := some (zeroGrid 2 2) })
        1 1 [] :=
  ⟨rfl, by decide,
    heatmap_resolution_reset id (fun _ => 0)
      { initialState with heatmap_accumulator := some (zeroGrid 2 2) }
      (zeroGrid 2 2) 1 1 [] rfl (by decide)⟩

theorem plot_box_nonneg (spread : ℕ → ℚ)
    (low_h low_w : ℕ) (f : ℕ → ℕ → ℚ) (hf : ∀ y x, 0 ≤ f y x) (b : Box) :
    ∀ y x, 0 ≤ plot_box spread low_h low_w f b y x := by
  intro y x
  simp only [plot_box]
  split_ifs with h1
  · dsimp only
    split_ifs with h2 h3
    · norm_num
    · exact le_max_of_le_left (hf y x)
    · exact hf y x
  · exact hf y x

theorem raw_layer_nonneg (spread : ℕ → ℚ)
    (low_h low_w : ℕ) (boxes : List Box) :
    ∀ y x, 0 ≤ raw_layer spread low_h low_w boxes y x := by
  have H : ∀ (bs : List Box) (f : ℕ → ℕ → ℚ), (∀ y x, 0 ≤ f y x) →
      ∀ y x, 0 ≤ bs.foldl (plot_box spread low_h low_w) f y x := by
    intro bs
    induction bs with
    | nil => intro f hf; exact hf
    | cons b bs ih =>
        intro f hf
        exact ih _ (plot_box_nonneg spread low_h low_w f hf b)
  exact H boxes _ (fun _ _ => le_refl 0)

theorem le_gridMax (h w : ℕ) (f : ℕ → ℕ → ℚ) (y x : ℕ) (hy : y < h)
    (hx : x < w) : f y x ≤ gridMax h w f := by
  unfold gridMax
  rw [Finset.le_fold_max]
  refine Or.inr ⟨(y, x), ?_, le_refl _⟩
  simp [cellSet, hy, hx]

theorem transient_layer_nonneg (blur : (ℕ → ℕ → ℚ) → ℕ → ℕ → ℚ)
    (spread : ℕ → ℚ)
    (hb : ∀ f, (∀ y x, 0 ≤ f y x) → ∀ y x, 0 ≤ blur f y x)
    (low_h low_w : ℕ) (boxes : List Box) :
    ∀ y x, 0 ≤ transient_layer blur spread low_h low_w boxes y x := by
  intro y x
  simp only [transient_layer]
  split_ifs with h1 h2
  · exact div_nonneg
      (hb _ (raw_layer_nonneg spread low_h low_w boxes) y x) (le_of_lt h2)
  · exact hb _ (raw_layer_nonneg spread low_h low_w boxes) y x
  · exact raw_layer_nonneg spread low_h low_w boxes y x

theorem clip_acc_bounds (h w : ℕ) (f : ℕ → ℕ → ℚ)
    (hf : ∀ y x, y < h → x < w → 0 ≤ f y x) (y x : ℕ) (hy : y < h)
    (hx : x < w) : 0 ≤ clip_acc h w f y x ∧ clip_acc h w f y x ≤ 1 := by
  unfold clip_acc
  split_ifs with hm
  · constructor
    · exact div_nonneg (hf y x hy hx) (le_of_lt (lt_trans zero_lt_one hm))
    · rw [div_le_one (lt_trans zero_lt_one hm)]
      exact le_gridMax h w f y x hy hx
  · exact ⟨hf y x hy hx, (le_gridMax h w f y x hy hx).trans (not_lt.mp hm)⟩

theorem resolution_check_acc (s : AppState) (low_h low_w : ℕ) :
    (resolution_check s low_h low_w).heatmap_accumulator = none ∨
      ((resolution_check s low_h low_w).heatmap_accumulator = s.heatmap_accumulator ∧
        ∃ g, s.heatmap_accumulator = some g ∧ g.hDim = low_h ∧ g.wDim = low_w) := by
  unfold resolution_check
  cases hacc : s.heatmap_accumulator with
  | none => exact Or.inl hacc
  | some g =>
      dsimp only
      split_ifs with hdim
      · exact Or.inr ⟨hacc, g, rfl, hdim.1, hdim.2⟩
      · exact Or.inl rfl

theorem update_heatmap_acc_bounds (blur : (ℕ → ℕ → ℚ) → ℕ → ℕ → ℚ)
    (spread : ℕ → ℚ)
    (hb : ∀ f, (∀ y x, 0 ≤ f y x) → ∀ y x, 0 ≤ blur f y x)
    (s : AppState) (low_h low_w : ℕ) (boxes : List Box)
    (hinv : ∀ g, s.heatmap_accumulator = some g →
      ∀ y x, y < g.hDim → x < g.wDim → 0 ≤ g.val y x) :
    ∀ g, (update_heatmap blur spread s low_h low_w boxes).heatmap_accumulator =
        some g →
      ∀ y x, y < g.hDim → x < g.wDim → 0 ≤ g.val y x ∧ g.val y x ≤ 1 := by
  intro g hg y x hy hx
  rw [uh_acc] at hg
  injection hg with hg
  subst hg
  apply clip_acc_bounds
  · intro y' x' hy' hx'
    have hlayer := transient_layer_nonneg blur spread hb low_h low_w boxes y' x'
    have haccv : 0 ≤ ((resolution_check s low_h low_w).heatmap_accumulator.getD
        (zeroGrid low_h low_w)).val y' x' := by
      rcases resolution_check_acc s low_h low_w with hnone | ⟨heq, g0, hg0, hdh, hdw⟩
      · rw [hnone]
        exact le_refl 0
      · rw [heq, hg0]
        exact hinv g0 hg0 y' x' (by rw [hdh]; exact hy') (by rw [hdw]; exact hx')
    have hd : (0 : ℚ) ≤ heatmap_decay := by norm_num [heatmap_decay]
    have hi : (0 : ℚ) ≤ heatmap_intensity := by norm_num [heatmap_intensity]
    exact add_nonneg (mul_nonneg hd haccv) (mul_nonneg hlayer hi)
  · exact hy
  · exact hx

theorem fold_acc_nonneg (blur : (ℕ → ℕ → ℚ) → ℕ → ℕ → ℚ) (spread : ℕ → ℚ)
    (hb : ∀ f, (∀ y x, 0 ≤ f y x) → ∀ y x, 0 ≤ blur f y x) :
    ∀ (calls : List HeatCall) (s : AppState),
      (∀ g, s.heatmap_accumulator = some g →
        ∀ y x, y < g.hDim → x < g.wDim → 0 ≤ g.val y x) →
      ∀ g, (calls.foldl
          (fun s c => update_heatmap blur spread s c.low_h c.low_w c.boxes)
          s).heatmap_accumulator = some g →
        ∀ y x, y < g.hDim → x < g.wDim → 0 ≤ g.val y x := by
  intro calls
  induction calls with
  | nil => intro s hinv; exact hinv
  | cons c cs ih =>
      intro s hinv
      rw [List.foldl_cons]
      apply ih
      intro g hg y x hy hx
      exact (update_heatmap_acc_bounds blur spread hb s c.low_h c.low_w c.boxes
        hinv g hg y x hy hx).1

theorem heat_acc_h_eq (s : AppState) (g : HGrid)
    (h : s.heatmap_accumulator = some g) : heat_acc_h s = g.hDim := by
  unfold heat_acc_h
  rw [h]

theorem heat_acc_w_eq (s : AppState) (g : HGrid)
    (h : s.heatmap_accumulator = some g) : heat_acc_w s = g.wDim := by
  unfold heat_acc_w
  rw [h]

theorem heat_acc_val_eq (s : AppState) (g : HGrid)
    (h : s.heatmap_accumulator = some g) (y x : ℕ) :
    heat_acc_val s y x = g.val y x := by
  unfold heat_acc_val
  rw [h]

/-- C5: after any sequence of `update_heatmap` calls (any box lists, any
downscaled frame sizes) from the initial state, every cell of the stored
decaying grid lies in `[0, 1]`. The blur parameter is constrained only to
preserve nonnegativity, a property of the concrete Gaussian blur passes;
nothing needs to be assumed about the falloff parameter. -/
theorem heatmap_decaying_bounds (blur : (ℕ → ℕ → ℚ) → ℕ → ℕ → ℚ)
    (spread : ℕ → ℚ)
    (hb : ∀ f, (∀ y x, 0 ≤ f y x) → ∀ y x, 0 ≤ blur f y x)
    (calls : List HeatCall) (y x : ℕ)
    (hy : y < heat_acc_h (applyHeatCalls blur spread calls))
    (hx : x < heat_acc_w (applyHeatCalls blur spread calls)) :
    0 ≤ heat_acc_val (applyHeatCalls blur spread calls) y x ∧
      heat_acc_val (applyHeatCalls blur spread calls) y x ≤ 1 := by
  rcases List.eq_nil_or_concat calls with rfl | ⟨cs, c, rfl⟩
  · exfalso
    revert hy
    simp [applyHeatCalls, heat_acc_h, initialState]
  · simp only [List.concat_eq_append] at hy hx ⊢
    have happ : applyHeatCalls blur spread (cs ++ [c]) =
        update_heatmap blur spread (applyHeatCalls blur spread cs)
          c.low_h c.low_w c.boxes := by
      unfold applyHeatCalls
      rw [List.foldl_append, List.foldl_cons, List.foldl_nil]
    have hnn := fold_acc_nonneg blur spread hb cs initialState
      (by intro g hg; simp [initialState] at hg)
    have hbd := update_heatmap_acc_bounds blur spread hb
      (applyHeatCalls blur spread cs) c.low_h c.low_w c.boxes hnn
    rw [happ] at hy hx ⊢
    have hacc := uh_acc blur spread (applyHeatCalls blur spread cs)
      c.low_h c.low_w c.boxes
    rw [heat_acc_h_eq _ _ hacc] at hy
    rw [heat_acc_w_eq _ _ hacc] at hx
    rw [heat_acc_val_eq _ _ hacc]
    exact hbd _ hacc y x hy hx

/-- Witness for C5: identity blur, zero falloff, one 1 by 1 update. -/
theorem heatmap_decaying_bounds_witness :
    ((∀ f : ℕ → ℕ → ℚ, (∀ y x, 0 ≤ f y x) → ∀ y x, 0 ≤ id f y x) ∧
      0 < heat_acc_h (applyHeatCalls id (fun _ => 0) [⟨1, 1, []⟩]) ∧
      0 < heat_acc_w (applyHeatCalls id (fun _ => 0) [⟨1, 1, []⟩])) ∧
    (0 ≤ heat_acc_val (applyHeatCalls id (fun _ => 0) [⟨1, 1, []⟩]) 0 0 ∧
      heat_acc_val (applyHeatCalls id (fun _ => 0) [⟨1, 1, []⟩]) 0 0 ≤ 1) :=
  ⟨⟨fun _ hf => hf, by decide, by decide⟩,
    heatmap_decaying_bounds id (fun _ => 0) (fun _ hf => hf)
      [⟨1, 1, []⟩] 0 0 (by decide) (by decide)⟩

theorem agg_getD_val (s : AppState) (h w y x : ℕ) :
    ((s.aggregate_heatmap_accumulator.getD (zeroGrid h w)).val y x) =
      agg_val s y x := by
  unfold agg_val
  cases hagg : s.aggregate_heatmap_accumulator <;> simp [hagg, zeroGrid]

theorem applyHeatCalls_append (blur : (ℕ → ℕ → ℚ) → ℕ → ℕ → ℚ)
    (spread : ℕ → ℚ) (cs : List HeatCall) (c : HeatCall) :
    applyHeatCalls blur spread (cs ++ [c]) =
      update_heatmap blur spread (applyHeatCalls blur spread cs)
        c.low_h c.low_w c.boxes := by
  unfold applyHeatCalls
  rw [List.foldl_append, List.foldl_cons, List.foldl_nil]

theorem applyHeatCalls_acc_shape (blur : (ℕ → ℕ → ℚ) → ℕ → ℕ → ℚ)
    (spread : ℕ → ℚ) (lh lw : ℕ) (calls : List HeatCall)
    (hres : ∀ c ∈ calls, c.low_h = lh ∧ c.low_w = lw) :
    (applyHeatCalls blur spread calls).heatmap_accumulator = none ∨
      ∃ f, (applyHeatCalls blur spread calls).heatmap_accumulator =
        some ⟨lh, lw, f⟩ := by
  rcases List.eq_nil_or_concat calls with rfl | ⟨cs, c, rfl⟩
  · exact Or.inl rfl
  · right
    simp only [List.concat_eq_append] at hres ⊢
    obtain ⟨hch, hcw⟩ := hres c (by simp)
    rw [applyHeatCalls_append, uh_acc, hch, hcw]
    exact ⟨_, rfl⟩

theorem resolution_check_eq_self (s : AppState) (lh lw : ℕ)
    (h : s.heatmap_accumulator = none ∨
      ∃ f, s.heatmap_accumulator = some ⟨lh, lw, f⟩) :
    resolution_check s lh lw = s := by
  unfold resolution_check
  rcases h with h | ⟨f, h⟩
  · rw [h]
  · rw [h]
    exact if_pos ⟨rfl, rfl⟩

theorem contribLayers_append (blur : (ℕ → ℕ → ℚ) → ℕ → ℕ → ℚ)
    (spread : ℕ → ℚ) (cs : List HeatCall) (c : HeatCall) :
    contribLayers blur spread (cs ++ [c]) =
      contribLayers blur spread cs ++
        (if contributes blur spread c then
          [transient_layer blur spread c.low_h c.low_w c.boxes]
        else []) := by
  unfold contribLayers
  rw [List.filter_append, List.map_append]
  congr 1
  cases hc : contributes blur spread c <;> simp [List.filter, hc]

theorem uh_agg_val (blur : (ℕ → ℕ → ℚ) → ℕ → ℕ → ℚ) (spread : ℕ → ℚ)
    (s : AppState) (low_h low_w : ℕ) (boxes : List Box) (y x : ℕ) :
    agg_val (update_heatmap blur spread s low_h low_w boxes) y x =
      if 0 < gridSum low_h low_w (transient_layer blur spread low_h low_w boxes)
      then agg_val (resolution_check s low_h low_w) y x +
        transient_layer blur spread low_h low_w boxes y x
      else agg_val (resolution_check s low_h low_w) y x := by
  unfold agg_val
  rw [uh_agg]
  dsimp only
  split_ifs with hcnt
  · dsimp only
    rw [agg_getD_val (resolution_check s low_h low_w) low_h low_w y x]
    rfl
  · rw [agg_getD_val (resolution_check s low_h low_w) low_h low_w y x]
    rfl

theorem aggregate_fold (blur : (ℕ → ℕ → ℚ) → ℕ → ℕ → ℚ) (spread : ℕ → ℚ)
    (lh lw : ℕ) :
    ∀ calls : List HeatCall, (∀ c ∈ calls, c.low_h = lh ∧ c.low_w = lw) →
      (applyHeatCalls blur spread calls).aggregate_frame_count =
        (contribLayers blur spread calls).length ∧
      ∀ y x, agg_val (applyHeatCalls blur spread calls) y x =
        ((contribLayers blur spread calls).map (fun L => L y x)).sum := by
  intro calls
  induction calls using List.reverseRecOn with
  | nil => exact fun _ => ⟨rfl, fun _ _ => rfl⟩
  | append_singleton cs c ih =>
      intro hres
      have hres' : ∀ d ∈ cs, d.low_h = lh ∧ d.low_w = lw := fun d hd =>
        hres d (by simp [hd])
      obtain ⟨hcount, hcell⟩ := ih hres'
      obtain ⟨hch, hcw⟩ := hres c (by simp)
      have hshape := applyHeatCalls_acc_shape blur spread lh lw cs hres'
      have hrc : resolution_check (applyHeatCalls blur spread cs) c.low_h c.low_w =
          applyHeatCalls blur spread cs := by
        rw [hch, hcw]
        exact resolution_check_eq_self _ lh lw hshape
      constructor
      · rw [applyHeatCalls_append, uh_agg_count, hrc, contribLayers_append]
        by_cases hcnt : 0 < gridSum c.low_h c.low_w
            (transient_layer blur spread c.low_h c.low_w c.boxes)
        · have hctr : contributes blur spread c = true := by
            simp [contributes, hcnt]
          rw [if_pos hcnt, hcount, List.length_append, hctr]
          simp
        · have hctr : contributes blur spread c = false := by
            simp [contributes, hcnt]
          rw [if_neg hcnt, hcount, List.length_append, hctr]
          simp
      · intro y x
        rw [applyHeatCalls_append, uh_agg_val, hrc, contribLayers_append,
          List.map_append, List.sum_append, hcell]
        by_cases hcnt : 0 < gridSum c.low_h c.low_w
            (transient_layer blur spread c.low_h c.low_w c.boxes)
        · have hctr : contributes blur spread c = true := by
            simp [contributes, hcnt]
          rw [if_pos hcnt, hctr]
          simp
        · have hctr : contributes blur spread c = false := by
            simp [contributes, hcnt]
          rw [if_neg hcnt, hctr]
          simp

/-- C7: the aggregate grid is never decayed: starting from the initial state
at a fixed resolution, its counter equals the number of contributing calls
(those whose final transient layer has positive sum) and each aggregate cell
equals the sum of the unscaled normalized transient layers of those calls, so
aggregate divided by counter is the cell-wise mean of the contributing
layers. -/
theorem aggregate_mean_spec (blur : (ℕ → ℕ → ℚ) → ℕ → ℕ → ℚ)
    (spread : ℕ → ℚ) (lh lw : ℕ) (calls : List HeatCall) (y x : ℕ)
    (hres : ∀ c ∈ calls, c.low_h = lh ∧ c.low_w = lw) :
    (applyHeatCalls blur spread calls).aggregate_frame_count =
      (contribLayers blur spread calls).length ∧
    agg_val (applyHeatCalls blur spread calls) y x =
      ((contribLayers blur spread calls).map (fun L => L y x)).sum ∧
    (0 < (applyHeatCalls blur spread calls).aggregate_frame_count →
      agg_val (applyHeatCalls blur spread calls) y x /
          ((applyHeatCalls blur spread calls).aggregate_frame_count : ℚ) =
        ((contribLayers blur spread calls).map (fun L => L y x)).sum /
          ((contribLayers blur spread calls).length : ℚ)) := by
  obtain ⟨h1, h2⟩ := aggregate_fold blur spread lh lw calls hres
  exact ⟨h1, h2 y x, fun _ => by rw [h1, h2 y x]⟩

/-- Witness for C7: one contributing 1 by 1 call with a single box. -/
theorem aggregate_mean_spec_witness :
    (∀ c ∈ [(⟨1, 1, [⟨0, 0, 0, 0⟩]⟩ : HeatCall)], c.low_h = 1 ∧ c.low_w = 1) ∧
    ((applyHeatCalls id (fun _ => 0) [⟨1, 1, [⟨0, 0, 0, 0⟩]⟩]).aggregate_frame_count =
      (contribLayers id (fun _ => 0) [⟨1, 1, [⟨0, 0, 0, 0⟩]⟩]).length ∧
    agg_val (applyHeatCalls id (fun _ => 0) [⟨1, 1, [⟨0, 0, 0, 0⟩]⟩]) 0 0 =
      ((contribLayers id (fun _ => 0) [⟨1, 1, [⟨0, 0, 0, 0⟩]⟩]).map
        (fun L => L 0 0)).sum ∧
    (0 < (applyHeatCalls id (fun _ => 0) [⟨1, 1, [⟨0, 0, 0, 0⟩]⟩]).aggregate_frame_count →
      agg_val (applyHeatCalls id (fun _ => 0) [⟨1, 1, [⟨0, 0, 0, 0⟩]⟩]) 0 0 /
          ((applyHeatCalls id (fun _ => 0)
            [⟨1, 1, [⟨0, 0, 0, 0⟩]⟩]).aggregate_frame_count : ℚ) =
        ((contribLayers id (fun _ => 0) [⟨1, 1, [⟨0, 0, 0, 0⟩]⟩]).map
          (fun L => L 0 0)).sum /
          ((contribLayers id (fun _ => 0) [⟨1, 1, [⟨0, 0, 0, 0⟩]⟩]).length : ℚ))) :=
  ⟨by decide,
    aggregate_mean_spec id (fun _ => 0) 1 1 [⟨1, 1, [⟨0, 0, 0, 0⟩]⟩] 0 0 (by decide)⟩

/-! ## Stop / restart and the alert history -/

theorem stop_video_fields (s : AppState) :
    (stop_video s).people_count_history = [] ∧
    (stop_video s).smoothed_people_count = 0 ∧
    (stop_video s).video_time_ms = 0 ∧
    (stop_video s).heatmap_accumulator = none ∧
    (stop_video s).aggregate_heatmap_accumulator = none ∧
    (stop_video s).aggregate_frame_count = 0 ∧
    (stop_video s).time_data = [] ∧
    (stop_video s).people_data = [] ∧
    (stop_video s).peak_count = 0 ∧
    (stop_video s).peak_time_ms = 0 ∧
    (stop_video s).offpeak_count = ⊤ ∧
    (stop_video s).offpeak_time_ms = 0 ∧
    (stop_video s).threshold_alert_active = false ∧
    (stop_video s).heatmap_enabled = false ∧
    (stop_video s).threshold_history = s.threshold_history := by
  unfold stop_video
  dsimp only
  split_ifs with hc
  · simp [ucas_count_history, ucas_smoothed, ucas_video_time, ucas_heat_acc,
      ucas_heat_agg, ucas_heat_count, ucas_time_data, ucas_people_data,
      ucas_peak, ucas_peak_time, ucas_offpeak, ucas_offpeak_time, ucas_active,
      ucas_history]
  · simp

theorem restart_video_fields (s : AppState) :
    (restart_video s).video_time_ms = 0 ∧
    (restart_video s).time_data = [] ∧
    (restart_video s).people_data = [] ∧
    (restart_video s).heatmap_accumulator =
      (if s.heatmap_enabled then none else s.heatmap_accumulator) ∧
    (restart_video s).threshold_alert_active = false ∧
    (restart_video s).peak_count = 0 ∧
    (restart_video s).peak_time_ms = 0 ∧
    (restart_video s).offpeak_count = ⊤ ∧
    (restart_video s).offpeak_time_ms = 0 ∧
    (restart_video s).people_count_history = s.people_count_history ∧
    (restart_video s).smoothed_people_count = s.smoothed_people_count ∧
    (restart_video s).aggregate_heatmap_accumulator =
      s.aggregate_heatmap_accumulator ∧
    (restart_video s).aggregate_frame_count = s.aggregate_frame_count ∧
    (restart_video s).threshold_history = s.threshold_history := by
  unfold restart_video
  dsimp only
  simp [ucas_count_history, ucas_smoothed, ucas_video_time, ucas_heat_acc,
    ucas_heat_agg, ucas_heat_count, ucas_time_data, ucas_people_data,
    ucas_active, ucas_history]

theorem stop_thr_history (s : AppState) :
    (stop_video s).threshold_history = s.threshold_history := by
  unfold stop_video
  dsimp only
  split_ifs with hc <;> simp [ucas_history]

theorem restart_thr_history (s : AppState) :
    (restart_video s).threshold_history = s.threshold_history := by
  unfold restart_video
  dsimp only
  simp [ucas_history]

theorem rc_thr_history (s : AppState) (low_h low_w : ℕ) :
    (resolution_check s low_h low_w).threshold_history = s.threshold_history := by
  unfold resolution_check
  cases hacc : s.heatmap_accumulator
  · rfl
  · dsimp only
    split_ifs with h <;> rfl

theorem uh_thr_history (blur : (ℕ → ℕ → ℚ) → ℕ → ℕ → ℚ) (spread : ℕ → ℚ)
    (s : AppState) (low_h low_w : ℕ) (boxes : List Box) :
    (update_heatmap blur spread s low_h low_w boxes).threshold_history =
      s.threshold_history := by
  show (resolution_check s low_h low_w).threshold_history = s.threshold_history
  exact rc_thr_history s low_h low_w

theorem ctc_opt_thr_append (u : AppState) (s_hist : List AlertRecord)
    (h : u.threshold_history = s_hist) :
    ∃ t, (if u.crowd_detection_enabled then check_threshold_crossing u
      else u).threshold_history = s_hist ++ t := by
  split_ifs with he
  · exact ⟨_, by rw [ctc_history, h]⟩
  · exact ⟨[], by rw [h, List.append_nil]⟩

theorem oswc_thr_append (s : AppState) (v : ℕ) :
    ∃ t, (on_smoothing_window_changed s v).threshold_history =
      s.threshold_history ++ t := by
  unfold on_smoothing_window_changed
  dsimp only
  apply ctc_opt_thr_append
  simp only [apply_ite AppState.threshold_history, ite_self]

theorem applyOp_thr_append (blur : (ℕ → ℕ → ℚ) → ℕ → ℕ → ℚ)
    (spread : ℕ → ℚ) (op : AppOp) (s : AppState) :
    ∃ t, (applyOp blur spread s op).threshold_history =
      s.threshold_history ++ t := by
  cases op with
  | frame c => exact ⟨_, display_thr_history s c⟩
  | timer e =>
      refine ⟨[], ?_⟩
      show (process_video_frame_timer s e).threshold_history = _
      unfold process_video_frame_timer
      split_ifs <;> simp
  | heat c =>
      exact ⟨[], by simp [applyOp, uh_thr_history]⟩
  | windowChanged v => exact oswc_thr_append s v
  | crowdToggled b => exact ⟨[], by simp [applyOp, toggled_history]⟩
  | thresholdChanged v => exact ⟨[], by simp [applyOp, threshold_changed_history]⟩
  | stop => exact ⟨[], by simp [applyOp, stop_thr_history]⟩
  | restart => exact ⟨[], by simp [applyOp, restart_thr_history]⟩
  | loop => exact ⟨[], by simp [applyOp, loop_reset]⟩

/-- A state holding one smoothing sample, a nonzero smoothed count and a
nonzero aggregate counter (as after playing some frames). -/
def midPlaybackState : AppState :=
  { initialState with
      people_count_history := [5]
      smoothed_people_count := 5
      aggregate_frame_count := 7 }

/-- C10 counterexample: restarting does not reset the smoothing history, the
smoothed count or the aggregate frame counter (the claim asserts that
restarting resets them, like stopping does). -/
theorem restart_keeps_smoothing_history :
    (restart_video midPlaybackState).people_count_history = [5] ∧
    (restart_video midPlaybackState).smoothed_people_count = 5 ∧
    (restart_video midPlaybackState).aggregate_frame_count = 7 :=
  ⟨rfl, rfl, rfl⟩

/-- C10 (amended): stopping playback resets the smoothing history, the
smoothed count, both heatmap grids, the aggregate frame counter, the
time-series buffer, the peak and off-peak records and the alert flag;
restarting resets the timer, the time-series buffer, the peak and off-peak
records and the alert flag, drops the decaying grid only when the heatmap is
enabled, and leaves the smoothing history, the smoothed count, the aggregate
grid and the aggregate frame counter unchanged; both leave the alert history
unchanged, and no modeled operation ever removes entries from the alert
history. -/
theorem stop_restart_reset_spec :
    (∀ s : AppState,
      (stop_video s).people_count_history = [] ∧
      (stop_video s).smoothed_people_count = 0 ∧
      (stop_video s).video_time_ms = 0 ∧
      (stop_video s).heatmap_accumulator = none ∧
      (stop_video s).aggregate_heatmap_accumulator = none ∧
      (stop_video s).aggregate_frame_count = 0 ∧
      (stop_video s).time_data = [] ∧
      (stop_video s).people_data = [] ∧
      (stop_video s).peak_count = 0 ∧
      (stop_video s).peak_time_ms = 0 ∧
      (stop_video s).offpeak_count = ⊤ ∧
      (stop_video s).offpeak_time_ms = 0 ∧
      (stop_video s).threshold_alert_active = false ∧
      (stop_video s).heatmap_enabled = false ∧
      (stop_video s).threshold_history = s.threshold_history) ∧
    (∀ s : AppState,
      (restart_video s).video_time_ms = 0 ∧
      (restart_video s).time_data = [] ∧
      (restart_video s).people_data = [] ∧
      (restart_video s).heatmap_accumulator =
        (if s.heatmap_enabled then none else s.heatmap_accumulator) ∧
      (restart_video s).threshold_alert_active = false ∧
      (restart_video s).peak_count = 0 ∧
      (restart_video s).peak_time_ms = 0 ∧
      (restart_video s).offpeak_count = ⊤ ∧
      (restart_video s).offpeak_time_ms = 0 ∧
      (restart_video s).people_count_history = s.people_count_history ∧
      (restart_video s).smoothed_people_count = s.smoothed_people_count ∧
      (restart_video s).aggregate_heatmap_accumulator =
        s.aggregate_heatmap_accumulator ∧
      (restart_video s).aggregate_frame_count = s.aggregate_frame_count ∧
      (restart_video s).threshold_history = s.threshold_history) ∧
    (∀ (blur : (ℕ → ℕ → ℚ) → ℕ → ℕ → ℚ) (spread : ℕ → ℚ) (op : AppOp)
        (s : AppState),
      ∃ t, (applyOp blur spread s op).threshold_history =
        s.threshold_history ++ t) :=
  ⟨stop_video_fields, restart_video_fields, applyOp_thr_append⟩

end CrowdSense
